import Mathlib

/-!
Verification of the Leaderboard backend (Express + Socket.io + Mongoose).

The development shallowly embeds the concurrency-control core of the
repository:

* `Team` and `atomicUpdateScore` from `models/Team.js`
  (the schema with the five score fields, `total`, `version`, and the
  optimistic-locking static method);
* the REST `PATCH /api/teams/:id` route, the `getLeaderboard` snapshot,
  the `debouncedBroadcast` debouncer, the `socket.on('updateScore')`
  retry loop and the `socket.on('disconnect')` handler from
  `backend/server.js`.

The MongoDB collection is a `List Team`; each MongoDB command
(`findById`, `findOneAndUpdate`, the write-back of `save()`) is one
atomic step on that list, and the `await` points of the JavaScript
handlers are the places where steps of different requests may
interleave.
-/

namespace Leaderboard

/-- A document of the `teams` collection (`models/Team.js`): five
non-negative score fields, the derived `total`, the optimistic-locking
`version`, and the `createdAt` timestamp added by `timestamps: true`.
`id` models the immutable `_id`. -/
structure Team where
  id : Nat
  name : String
  madLudo : Int
  treasureHunt : Int
  spaceRoulette : Int
  cosmicJump : Int
  spaceColosseum : Int
  total : Int
  version : Nat
  createdAt : Nat
deriving DecidableEq

/-- The fixed five-name field set checked by `atomicUpdateScore`. -/
def validFields : List String :=
  ["madLudo", "treasureHunt", "spaceRoulette", "cosmicJump", "spaceColosseum"]

/-- Dynamic field read `team[field]` for the five score fields. -/
def getScore (t : Team) (field : String) : Int :=
  if field = "madLudo" then t.madLudo
  else if field = "treasureHunt" then t.treasureHunt
  else if field = "spaceRoulette" then t.spaceRoulette
  else if field = "cosmicJump" then t.cosmicJump
  else if field = "spaceColosseum" then t.spaceColosseum
  else 0

/-- Dynamic field write `team[field] = v` for the five score fields. -/
def setScore (t : Team) (field : String) (v : Int) : Team :=
  if field = "madLudo" then { t with madLudo := v }
  else if field = "treasureHunt" then { t with treasureHunt := v }
  else if field = "spaceRoulette" then { t with spaceRoulette := v }
  else if field = "cosmicJump" then { t with cosmicJump := v }
  else if field = "spaceColosseum" then { t with spaceColosseum := v }
  else t

/-- The sum `madLudo + treasureHunt + spaceRoulette + cosmicJump +
spaceColosseum` computed by the `pre('save')` hook. -/
def sumScores (t : Team) : Int :=
  t.madLudo + t.treasureHunt + t.spaceRoulette + t.cosmicJump + t.spaceColosseum

/-- The four error classes thrown by `atomicUpdateScore`. -/
inductive UpdErr where
  | invalidField
  | invalidValue
  | notFound
  | conflict
deriving DecidableEq

/-- The `Error` message attached to each throw in `atomicUpdateScore`. -/
def errMessage : UpdErr → String
  | .invalidField => "Invalid field for update"
  | .invalidValue => "Invalid score value"
  | .notFound => "Team not found"
  | .conflict => "CONFLICT: Score was updated by another user. Please refresh and try again."

/-- Character-list substring test, used to model JavaScript
`String.prototype.includes`. -/
def includesChars (p : List Char) : List Char → Bool
  | [] => p.isEmpty
  | c :: cs => p.isPrefixOf (c :: cs) || includesChars p cs

/-- JavaScript `s.includes(needle)`. -/
def jsIncludes (needle s : String) : Bool :=
  includesChars needle.data s.data

/-- `this.findById(teamId)`: the first document with the given `_id`. -/
def findById (db : List Team) (teamId : Nat) : Option Team :=
  db.find? (fun t => t.id == teamId)

/-- Replace the first element satisfying `p` (MongoDB updates the first
matching document). -/
def replaceFirst (l : List Team) (p : Team → Bool) (x : Team) : List Team :=
  match l with
  | [] => []
  | u :: us => if p u then x :: us else u :: replaceFirst us p x

/-- The update document `{$set: {[field]: newValue}, $inc: {total:
difference, version: 1}}` applied to one team. -/
def applyScoreUpdate (t : Team) (field : String) (newValue : Int) (difference : Int) : Team :=
  let t1 := setScore t field newValue
  { t1 with total := t1.total + difference, version := t1.version + 1 }

/-- The single atomic MongoDB command
`findOneAndUpdate({_id: teamId, version: version}, {$set: {[field]:
newValue}, $inc: {total: difference, version: 1}}, {new: true})`:
commits iff a document currently has this `_id` AND this `version`,
and returns the post-update document. -/
def findOneAndUpdateScore (db : List Team) (teamId : Nat) (version : Nat)
    (field : String) (newValue : Int) (difference : Int) : Option (List Team × Team) :=
  match db.find? (fun u => u.id == teamId && u.version == version) with
  | none => none
  | some t =>
    let t2 := applyScoreUpdate t field newValue difference
    some (replaceFirst db (fun u => u.id == teamId && u.version == version) t2, t2)

/-- `teamSchema.statics.atomicUpdateScore(teamId, field, newValue,
currentVersion)` from `models/Team.js`, run with no interleaving between
its two database commands (`findById`, then `findOneAndUpdate`).
`newValue = none` models a `NaN` value (rejected by the `isNaN` check).
The source declares the `currentVersion` parameter but never reads it:
the version used for optimistic locking is `currentTeam.version` from
the method's own `findById` read, and both call sites in `server.js`
pass only three arguments. -/
def atomicUpdateScore (db : List Team) (teamId : Nat) (field : String)
    (newValue : Option Int) (currentVersion : Option Nat) : Except UpdErr (List Team × Team) :=
  if validFields.contains field then
    match newValue with
    | none => .error .invalidValue
    | some v =>
      if v < 0 then .error .invalidValue
      else
        match findById db teamId with
        | none => .error .notFound
        | some currentTeam =>
          let oldValue := getScore currentTeam field
          let difference := v - oldValue
          match findOneAndUpdateScore db teamId currentTeam.version field v difference with
          | none => .error .conflict
          | some r => .ok r
  else .error .invalidField

/-- A JSON value of the `PATCH /api/teams/:id` request body: a number
(already coerced) or a string.  A string in a numeric slot coerces to
`NaN`; only well-typed bodies are exercised below. -/
inductive Val where
  | num (n : Int)
  | str (s : String)
deriving DecidableEq

/-- `allowedFields` of the PATCH route (`server.js` line 201). -/
def allowedFields : List String :=
  ["madLudo", "treasureHunt", "spaceRoulette", "cosmicJump", "spaceColosseum", "name"]

/-- `scoreFields` of the PATCH route (`server.js` line 202). -/
def scoreFields : List String :=
  ["madLudo", "treasureHunt", "spaceRoulette", "cosmicJump", "spaceColosseum"]

/-- `Number(x)` for a request-body value: a string models `NaN`. -/
def numOf : Option Val → Option Int
  | some (.num n) => some n
  | _ => none

/-- One assignment of `Object.assign(team, updateFields)` where
`updateFields` kept only the allowed keys. -/
def assignOne (acc : Team) (k : String) (v : Val) : Team :=
  if allowedFields.contains k then
    match v with
    | .str s => if k = "name" then { acc with name := s } else acc
    | .num n => setScore acc k n
  else acc

/-- `Object.assign(team, updateFields)` over the whole request body. -/
def assignUpdates (t : Team) (updates : List (String × Val)) : Team :=
  updates.foldl (fun acc kv => assignOne acc kv.1 kv.2) t

/-- Mongoose marks a path modified when it is set to a value different
from the stored one; `this.isModified([...scoreFields])` is true iff
some score field changed. -/
def scoresModified (t t2 : Team) : Bool :=
  scoreFields.any (fun f => !(getScore t2 f == getScore t f))

/-- The `teamSchema.pre('save')` hook: recompute `total` from the five
fields when the document is new or a score field was modified.  It
never touches `version`. -/
def preSave (isNew : Bool) (modifiedScores : Bool) (t : Team) : Team :=
  if isNew || modifiedScores then { t with total := sumScores t } else t

/-- JavaScript truthiness of `updates.name`, for the route's
`!nameUpdate` guard: an absent key (`undefined`), the empty string and
the number 0 are falsy; every other value is truthy. -/
def nameTruthy : Option Val → Bool
  | none => false
  | some (.str s) => !(s == "")
  | some (.num n) => !(n == 0)

/-- The `PATCH /api/teams/:id` route (`server.js` lines 195-248), run
with no interleaving.  The branch guard is
`scoreUpdates.length === 1 && !nameUpdate` with JavaScript truthiness:
a single score key together with an absent or falsy `name` value takes
the atomic branch; otherwise the route takes the traditional branch:
`findById`, `Object.assign` over the allowed keys, then `save()` (which
runs the `pre('save')` hook and writes the document back). -/
def patchTeam (db : List Team) (id : Nat) (updates : List (String × Val)) :
    Except UpdErr (List Team × Team) :=
  let scoreUpdates := (updates.map Prod.fst).filter (fun k => scoreFields.contains k)
  let nameUpdate := updates.lookup "name"
  if scoreUpdates.length = 1 && !(nameTruthy nameUpdate) then
    match scoreUpdates.head? with
    | some field => atomicUpdateScore db id field (numOf (updates.lookup field)) none
    | none => .error .invalidField
  else
    match findById db id with
    | none => .error .notFound
    | some team =>
      let team2 := assignUpdates team updates
      let team3 := preSave false (scoresModified team team2) team2
      .ok (replaceFirst db (fun u => u.id == id) team3, team3)

/-! ### Ranked leaderboard snapshot (`getLeaderboard`, server.js 124-141) -/

/-- The sort key of `Team.find().sort({ total: -1, createdAt: 1 })`:
`total` descending, ties broken by `createdAt` ascending. -/
def teamOrder (a b : Team) : Prop :=
  b.total < a.total ∨ (a.total = b.total ∧ a.createdAt ≤ b.createdAt)

instance : DecidableRel teamOrder := fun a b => by
  unfold teamOrder; exact inferInstance

instance : IsTotal Team teamOrder := by
  constructor
  intro a b
  unfold teamOrder
  omega

instance : IsTrans Team teamOrder := by
  constructor
  intro a b c hab hbc
  unfold teamOrder at *
  omega

/-- The database sort of the snapshot query. -/
def sortTeams (db : List Team) : List Team :=
  List.insertionSort teamOrder db

/-- A snapshot entry: the team spread together with its computed
`rank`. -/
structure RankedTeam where
  team : Team
  rank : Nat
deriving DecidableEq

/-- `teams.map((team, index) => ({...team, rank: index + 1}))`. -/
def assignRanks : Nat → List Team → List RankedTeam
  | _, [] => []
  | i, t :: ts => ⟨t, i + 1⟩ :: assignRanks (i + 1) ts

/-- `getLeaderboard()`: fetch all teams sorted by `total` descending
with `createdAt` ascending tie-break, then assign 1-based ranks.  It is
recomputed from the current store state at every call (`GET
/api/teams`, the initial push on connect, and each debounced
broadcast). -/
def getLeaderboard (db : List Team) : List RankedTeam :=
  assignRanks 0 (sortTeams db)

/-! ### The socket `updateScore` retry loop (server.js 320-379) -/

/-- The `serverLoad` diagnostic `{connections: activeConnections,
updatesPerSecond: totalUpdatesPerSecond}`. -/
structure ServerLoad where
  connections : Int
  updatesPerSecond : Nat
deriving DecidableEq

/-- The single outcome message of one `updateScore` request: either
`updateSuccess {attempts, team}` (with the committed store state) or
`updateError {message, retryCount, serverLoad}`. -/
inductive SocketOutcome where
  | success (attempts : Nat) (newDb : List Team) (team : Team)
  | failure (err : UpdErr) (retryCount : Nat) (serverLoad : ServerLoad)
deriving DecidableEq

/-- `const MAX_RETRIES = 5` (server.js line 321). -/
def MAX_RETRIES : Nat := 5

/-- What one run of the `attemptUpdate` loop produced: how many times
`Team.atomicUpdateScore` was invoked, whether `debouncedBroadcast()`
was called, and the one outcome emitted to the caller. -/
structure LoopResult where
  attempts : Nat
  scheduledBroadcast : Bool
  outcome : SocketOutcome
deriving DecidableEq

/-- The recursive `attemptUpdate` closure.  `tryAt n` is the result of
the call to `Team.atomicUpdateScore` made when `retryCount = n` — an
oracle, because between two attempts other callers may have changed the
store.  On success: schedule a broadcast and emit `updateSuccess` with
`attempts = retryCount + 1`.  On an error whose message includes
`'CONFLICT'` while `retryCount < MAX_RETRIES`: increment `retryCount`
and retry (after a backoff delay, irrelevant to the result).  Otherwise
emit `updateError` with the current `retryCount` and the server load.
`fuel` only makes the recursion structural; it starts at `MAX_RETRIES`
and cannot run out before the `retryCount < MAX_RETRIES` guard stops
the loop. -/
def attemptUpdateAux (tryAt : Nat → Except UpdErr (List Team × Team)) (load : ServerLoad) :
    Nat → Nat → LoopResult
  | fuel, retryCount =>
    match tryAt retryCount with
    | .ok (db2, team) => ⟨1, true, .success (retryCount + 1) db2 team⟩
    | .error e =>
      if jsIncludes "CONFLICT" (errMessage e) && decide (retryCount < MAX_RETRIES) then
        match fuel with
        | 0 => ⟨1, false, .failure e retryCount load⟩
        | fuel' + 1 =>
          let r := attemptUpdateAux tryAt load fuel' (retryCount + 1)
          { r with attempts := r.attempts + 1 }
      else ⟨1, false, .failure e retryCount load⟩

/-- The `attemptUpdate` loop entered with the given initial
`retryCount` (the handler starts it at 0). -/
def attemptUpdate (tryAt : Nat → Except UpdErr (List Team × Team)) (load : ServerLoad)
    (retryCount : Nat) : LoopResult :=
  attemptUpdateAux tryAt load MAX_RETRIES retryCount

/-- The whole `socket.on('updateScore')` handler run with no
interleaved writers: every attempt calls `atomicUpdateScore` against
the same store state `db`.  Returns the store state after the request
together with the loop result. -/
def handleUpdateScore (db : List Team) (teamId : Nat) (field : String)
    (value : Option Int) (load : ServerLoad) : List Team × LoopResult :=
  let r := attemptUpdate (fun _ => atomicUpdateScore db teamId field value none) load 0
  (match r.outcome with
   | .success _ db2 _ => db2
   | .failure _ _ _ => db, r)

/-! ### The broadcast debouncer (`debouncedBroadcast`, server.js 81-115)

`broadcastTimeout` is a module-level variable holding the handle of the
last `setTimeout` (or `null`).  The model tracks, in addition, the set
of timers that have been set and neither fired nor been cleared —
`clearTimeout` on a handle whose timer already fired is a no-op, which
is what makes the states observable. -/

/-- `const BROADCAST_DELAY = 100` (server.js line 82). -/
def BROADCAST_DELAY : Nat := 100

/-- A live `setTimeout` timer: its handle and scheduled fire time. -/
structure Timer where
  tid : Nat
  fireAt : Nat
deriving DecidableEq

/-- The debouncer state: the live (set, unfired, uncleared) timers, the
`broadcastTimeout` variable, and a fresh-handle counter. -/
structure DebState where
  live : List Timer
  tracked : Option Nat
  nextId : Nat
deriving DecidableEq

/-- Server start: `broadcastTimeout = null`, no timer set. -/
def initDeb : DebState := ⟨[], none, 0⟩

/-- `debouncedBroadcast()`: `clearTimeout(broadcastTimeout)` if it is
non-null (a no-op when that timer already fired), then
`broadcastTimeout = setTimeout(..., BROADCAST_DELAY)`. -/
def debouncedBroadcast (s : DebState) (now : Nat) : DebState :=
  let cleared := match s.tracked with
    | some t => s.live.filter (fun tm => tm.tid != t)
    | none => s.live
  { live := ⟨s.nextId, now + BROADCAST_DELAY⟩ :: cleared
    tracked := some s.nextId
    nextId := s.nextId + 1 }

/-- The timeout callback of timer `t` starts running: the timer fires
(it is no longer pending) and the callback suspends on
`await broadcastLeaderboard()`.  `broadcastTimeout` still holds the
fired handle until the callback resumes. -/
def fireStart (s : DebState) (t : Nat) : DebState :=
  if s.live.any (fun tm => tm.tid == t) then
    { s with live := s.live.filter (fun tm => tm.tid != t) }
  else s

/-- The timeout callback resumes after the `await` and finishes:
`broadcastTimeout = null` — in the `try` arm when the broadcast
succeeded and in the `catch` arm when it failed. -/
def fireEnd (s : DebState) (broadcastSucceeded : Bool) : DebState :=
  { s with tracked := none }

/-- Debouncer events in which the fire callback runs atomically: no
`debouncedBroadcast()` call interleaves its `await` window. -/
inductive DebEvent where
  | schedule (now : Nat)
  | fire (t : Nat) (broadcastSucceeded : Bool)

/-- One atomic debouncer step. -/
def debStep (s : DebState) (e : DebEvent) : DebState :=
  match e with
  | .schedule now => debouncedBroadcast s now
  | .fire t ok => if s.live.any (fun tm => tm.tid == t) then fireEnd (fireStart s t) ok else s

/-- The debouncer state after a sequence of atomic events from server
start. -/
def debRun (es : List DebEvent) : DebState :=
  es.foldl debStep initDeb

/-! ### Connection lifecycle (server.js 306-395) -/

/-- A pending `setTimeout(attemptUpdate, delay)` retry scheduled on
behalf of one socket's `updateScore` request. -/
structure RetryTimer where
  socketId : Nat
  teamId : Nat
  field : String
  value : Option Int
  retryCount : Nat
deriving DecidableEq

/-- The per-process connection state: the `activeConnections` counter
and the set of pending retry timers across all sockets. -/
structure ConnState where
  activeConnections : Int
  pendingRetries : List RetryTimer
deriving DecidableEq

/-- The whole body of `socket.on('disconnect')` (server.js 382-385):
`activeConnections--`.  No timer is cleared. -/
def onDisconnect (s : ConnState) : ConnState :=
  { s with activeConnections := s.activeConnections - 1 }

/-- Inductive invariant of the debouncer under atomic fire callbacks:
`broadcastTimeout` points at the unique live timer, or there is no live
timer at all. -/
def DebInv (s : DebState) : Prop :=
  (s.tracked = none ∧ s.live = []) ∨ (∃ tm, s.tracked = some tm.tid ∧ s.live = [tm])

/-- Modelled from the spec (claim C2): the update performed as ONE
indivisible step over the current state — read the current version and
current field value, compare the version with `expectedVersion`; on
match set the field to `newValue`, add `newValue - oldValue` to
`total`, increment `version` and return the new record; on mismatch
leave all record state unchanged and report a conflict. -/
def specIndivisibleUpdate (db : List Team) (teamId : Nat) (field : String)
    (newValue : Int) (expectedVersion : Nat) : Except UpdErr (List Team × Team) :=
  match findById db teamId with
  | none => .error .notFound
  | some t =>
    if t.version = expectedVersion then
      let t2 := applyScoreUpdate t field newValue (newValue - getScore t field)
      .ok (replaceFirst db (fun u => u.id == teamId) t2, t2)
    else .error .conflict

/-! ### Helper lemmas -/

theorem mem_validFields (f : String) (hf : f ∈ validFields) :
    f = "madLudo" ∨ f = "treasureHunt" ∨ f = "spaceRoulette" ∨
      f = "cosmicJump" ∨ f = "spaceColosseum" := by
  simpa [validFields] using hf

theorem getScore_setScore_same (t : Team) (f : String) (v : Int) (hf : f ∈ validFields) :
    getScore (setScore t f v) f = v := by
  rcases mem_validFields f hf with rfl | rfl | rfl | rfl | rfl <;>
    simp [getScore, setScore]

theorem getScore_setScore_other (t : Team) (f g : String) (v : Int)
    (hf : f ∈ validFields) (hg : g ∈ validFields) (hne : g ≠ f) :
    getScore (setScore t f v) g = getScore t g := by
  rcases mem_validFields f hf with rfl | rfl | rfl | rfl | rfl <;>
    rcases mem_validFields g hg with rfl | rfl | rfl | rfl | rfl <;>
      simp_all [getScore, setScore]

theorem sumScores_setScore (t : Team) (f : String) (v : Int) (hf : f ∈ validFields) :
    sumScores (setScore t f v) = sumScores t + (v - getScore t f) := by
  rcases mem_validFields f hf with rfl | rfl | rfl | rfl | rfl <;>
    simp [sumScores, setScore, getScore] <;> ring

theorem setScore_id (t : Team) (f : String) (v : Int) : (setScore t f v).id = t.id := by
  simp only [setScore]; split_ifs <;> rfl

theorem setScore_name (t : Team) (f : String) (v : Int) : (setScore t f v).name = t.name := by
  simp only [setScore]; split_ifs <;> rfl

theorem setScore_createdAt (t : Team) (f : String) (v : Int) :
    (setScore t f v).createdAt = t.createdAt := by
  simp only [setScore]; split_ifs <;> rfl

theorem setScore_version (t : Team) (f : String) (v : Int) :
    (setScore t f v).version = t.version := by
  simp only [setScore]; split_ifs <;> rfl

theorem setScore_total (t : Team) (f : String) (v : Int) : (setScore t f v).total = t.total := by
  simp only [setScore]; split_ifs <;> rfl

theorem replaceFirst_length (l : List Team) (p : Team → Bool) (x : Team) :
    (replaceFirst l p x).length = l.length := by
  induction l with
  | nil => rfl
  | cons u us ih => simp only [replaceFirst]; split_ifs <;> simp [ih]

theorem getElem?_replaceFirst (l : List Team) (p : Team → Bool) (x : Team)
    (i : Nat) (u : Team) (hu : l[i]? = some u) (hp : p u = false) :
    (replaceFirst l p x)[i]? = some u := by
  induction l generalizing i with
  | nil => simp at hu
  | cons w ws ih =>
    cases i with
    | zero =>
      simp only [List.getElem?_cons_zero, Option.some_inj] at hu
      subst hu
      simp [replaceFirst, hp]
    | succ j =>
      simp only [List.getElem?_cons_succ] at hu
      simp only [replaceFirst]
      split_ifs with hw
      · simpa using hu
      · simpa using ih j hu

theorem mem_replaceFirst (l : List Team) (p : Team → Bool) (x u : Team)
    (hu : u ∈ replaceFirst l p x) : u = x ∨ u ∈ l := by
  induction l with
  | nil => simp [replaceFirst] at hu
  | cons w ws ih =>
    simp only [replaceFirst] at hu
    split_ifs at hu with hw
    · rcases List.mem_cons.mp hu with hu | hu
      · exact Or.inl hu
      · exact Or.inr (List.mem_cons_of_mem _ hu)
    · rcases List.mem_cons.mp hu with hu | hu
      · exact Or.inr (hu ▸ List.mem_cons_self _ _)
      · rcases ih hu with h | h
        · exact Or.inl h
        · exact Or.inr (List.mem_cons_of_mem _ h)

theorem find?_id_version (db : List Team) (teamId : Nat) (ct : Team)
    (h : findById db teamId = some ct) :
    db.find? (fun u => u.id == teamId && u.version == ct.version) = some ct := by
  induction db with
  | nil => simp [findById] at h
  | cons w ws ih =>
    unfold findById at h
    by_cases hw : (w.id == teamId) = true
    · simp only [List.find?_cons, hw] at h
      cases h
      simp only [List.find?_cons, hw, Bool.true_and, beq_self_eq_true]
    · rw [Bool.not_eq_true] at hw
      simp only [List.find?_cons, hw] at h
      simp only [List.find?_cons, hw, Bool.false_and]
      exact ih h

/-- Inversion of a successful `atomicUpdateScore` run: the validations
passed, the snapshot read found `ct`, the CAS guard matched `ct` itself
(in a run without interleaving the version cannot have moved), and the
result is the update document applied to `ct`. -/
theorem atomicUpdateScore_ok (db : List Team) (teamId : Nat) (f : String)
    (nv : Option Int) (cv : Option Nat) (db2 : List Team) (t2 : Team)
    (h : atomicUpdateScore db teamId f nv cv = .ok (db2, t2)) :
    ∃ v ct, nv = some v ∧ f ∈ validFields ∧ 0 ≤ v ∧
      findById db teamId = some ct ∧
      t2 = applyScoreUpdate ct f v (v - getScore ct f) ∧
      db2 = replaceFirst db (fun u => u.id == teamId && u.version == ct.version) t2 := by
  unfold atomicUpdateScore at h
  split_ifs at h with hf
  cases nv with
  | none => exact Except.noConfusion h
  | some v =>
    dsimp only at h
    split_ifs at h with hneg
    split at h
    · exact Except.noConfusion h
    · rename_i ct hct
      simp only [findOneAndUpdateScore, find?_id_version db teamId ct hct] at h
      cases h
      exact ⟨v, ct, rfl, by simpa using hf, by omega, hct, rfl, rfl⟩

theorem jsIncludes_conflictMsg : jsIncludes "CONFLICT" (errMessage .conflict) = true := by
  decide

theorem attemptUpdateAux_conflict (tryAt : Nat → Except UpdErr (List Team × Team))
    (load : ServerLoad) (h : ∀ n, tryAt n = .error .conflict) :
    ∀ fuel rc, rc + fuel = MAX_RETRIES →
      attemptUpdateAux tryAt load fuel rc =
        ⟨fuel + 1, false, .failure .conflict MAX_RETRIES load⟩ := by
  intro fuel
  induction fuel with
  | zero =>
    intro rc hrc
    have hrc5 : rc = MAX_RETRIES := by omega
    subst hrc5
    unfold attemptUpdateAux
    rw [h MAX_RETRIES]
    simp
  | succ fuel' ih =>
    intro rc hrc
    have hlt : rc < MAX_RETRIES := by omega
    unfold attemptUpdateAux
    rw [h rc]
    simp [jsIncludes_conflictMsg, hlt, ih (rc + 1) (by omega)]

/-- Claim C3: when every attempt hits a version conflict, the
`updateScore` handler makes exactly `MAX_RETRIES + 1` attempts (6 with
`MAX_RETRIES = 5`), schedules no broadcast, and reports exactly one
failure outcome carrying the final retry count and the
`{connections, updatesPerSecond}` server-load snapshot. -/
theorem conflictExhaustion (tryAt : Nat → Except UpdErr (List Team × Team)) (load : ServerLoad)
    (h : ∀ n, tryAt n = .error .conflict) :
    attemptUpdate tryAt load 0 =
      ⟨MAX_RETRIES + 1, false, .failure .conflict MAX_RETRIES load⟩ :=
  attemptUpdateAux_conflict tryAt load h MAX_RETRIES 0 rfl

/-- Witness for C3 at a concrete permanently-conflicting oracle. -/
theorem conflictExhaustion_witness :
    attemptUpdate (fun _ => .error .conflict) ⟨3, 7⟩ 0 =
      ⟨6, false, .failure .conflict 5 ⟨3, 7⟩⟩ :=
  conflictExhaustion (fun _ => .error .conflict) ⟨3, 7⟩ (fun _ => rfl)

/-- Claim C8, amended: `atomicUpdateScore` declares the
`currentVersion` parameter but never reads it — the result is identical
whatever value (or `undefined`, as at both `server.js` call sites) is
supplied; conflict detection instead compares the version at CAS time
with the method's own `findById` snapshot. -/
theorem currentVersionIgnored (db : List Team) (teamId : Nat) (f : String)
    (nv : Option Int) (cv cv' : Option Nat) :
    atomicUpdateScore db teamId f nv cv = atomicUpdateScore db teamId f nv cv' := rfl

/-- Claim C8 counterexample: the store record has version 5; the caller
supplies `expectedVersion = 99 ≠ 5`.  The claim requires a
`ConflictError` and no mutation, but the operation commits: the field is
set, `total` moves to 20 and `version` to 6. -/
theorem C8_counterexample :
    (99 : Nat) ≠ (Team.mk 0 "T" 1 2 3 4 5 15 5 0).version ∧
    atomicUpdateScore [Team.mk 0 "T" 1 2 3 4 5 15 5 0] 0 "treasureHunt" (some 7) (some 99) =
      .ok ([Team.mk 0 "T" 1 7 3 4 5 20 6 0], Team.mk 0 "T" 1 7 3 4 5 20 6 0) := by
  exact ⟨by decide, rfl⟩

/-- Claim C7, amended: the `disconnect` handler only decrements
`activeConnections`; it cancels nothing, so every pending retry timer
survives the disconnect and will still run. -/
theorem disconnectKeepsRetries (s : ConnState) :
    (onDisconnect s).pendingRetries = s.pendingRetries ∧
    (onDisconnect s).activeConnections = s.activeConnections - 1 :=
  ⟨rfl, rfl⟩

/-- Claim C7 counterexample: socket 7 has a pending retry (its first
attempt conflicted, `retryCount = 1`) and then disconnects.  The
pending retry is not abandoned, and when its timer fires the attempt
commits (version 4 → 5) and emits a success outcome to the gone
caller. -/
theorem C7_counterexample :
    (onDisconnect ⟨1, [⟨7, 0, "madLudo", some 9, 1⟩]⟩).pendingRetries =
      [⟨7, 0, "madLudo", some 9, 1⟩] ∧
    (attemptUpdate
        (fun _ => atomicUpdateScore [Team.mk 0 "A" 0 0 0 0 0 0 4 0] 0 "madLudo" (some 9) none)
        ⟨0, 0⟩ 1).outcome =
      .success 2 [Team.mk 0 "A" 9 0 0 0 0 9 5 0] (Team.mk 0 "A" 9 0 0 0 0 9 5 0) := by
  exact ⟨rfl, by decide⟩

theorem debInv_init : DebInv initDeb := Or.inl ⟨rfl, rfl⟩

theorem debInv_step (s : DebState) (e : DebEvent) (h : DebInv s) : DebInv (debStep s e) := by
  cases e with
  | schedule now =>
    right
    refine ⟨⟨s.nextId, now + BROADCAST_DELAY⟩, rfl, ?_⟩
    rcases h with ⟨h1, h2⟩ | ⟨tm, h1, h2⟩ <;>
      simp [debStep, debouncedBroadcast, h1, h2]
  | fire t ok =>
    rcases h with ⟨h1, h2⟩ | ⟨tm, h1, h2⟩
    · have hs : debStep s (.fire t ok) = s := by simp [debStep, h2]
      rw [hs]
      exact Or.inl ⟨h1, h2⟩
    · by_cases hmatch : (tm.tid == t) = true
      · have ht : tm.tid = t := by simpa using hmatch
        subst ht
        have hs : debStep s (.fire tm.tid ok) = ⟨[], none, s.nextId⟩ := by
          simp [debStep, fireStart, fireEnd, h2]
        rw [hs]
        exact Or.inl ⟨rfl, rfl⟩
      · have hs : debStep s (.fire t ok) = s := by
          simp [debStep, h2, hmatch]
        rw [hs]
        exact Or.inr ⟨tm, h1, h2⟩

theorem debRun_inv (es : List DebEvent) : DebInv (debRun es) := by
  suffices hgen : ∀ s, DebInv s → DebInv (es.foldl debStep s) from hgen initDeb debInv_init
  induction es with
  | nil => exact fun s hs => hs
  | cons e es ih => exact fun s hs => ih _ (debInv_step s e hs)

/-- Claim C6, amended: `debouncedBroadcast()` is a trailing-edge
debounce on the tracked timer — it always leaves `broadcastTimeout`
pointing at a timer scheduled for `now + BROADCAST_DELAY`, whether or
not one was pending, and any surviving older timer was live before and
was not the tracked one (the tracked one is cancelled).  The fire
callback clears the pending state whether the broadcast succeeds or
fails, so a later `schedule` is never blocked.  And as long as no
`debouncedBroadcast()` call interleaves a fire callback's `await`
window (atomic fire events), at most one scheduled broadcast exists at
any instant. -/
theorem debouncerContract :
    (∀ s now, (debouncedBroadcast s now).tracked = some s.nextId ∧
        Timer.mk s.nextId (now + BROADCAST_DELAY) ∈ (debouncedBroadcast s now).live) ∧
    (∀ s now tm, tm ∈ (debouncedBroadcast s now).live → tm.tid ≠ s.nextId →
        s.tracked ≠ some tm.tid ∧ tm ∈ s.live) ∧
    (∀ s ok, (fireEnd s ok).tracked = none) ∧
    (∀ es, (debRun es).live.length ≤ 1) := by
  refine ⟨?_, ?_, ?_, ?_⟩
  · exact fun s now => ⟨rfl, List.mem_cons_self _ _⟩
  · intro s now tm htm hne
    simp only [debouncedBroadcast] at htm
    rcases List.mem_cons.mp htm with h | h
    · exact absurd (congrArg Timer.tid h) (by simpa using hne)
    · cases htr : s.tracked with
      | none =>
        rw [htr] at h
        exact ⟨by simp, h⟩
      | some t =>
        rw [htr] at h
        have hmf := List.mem_filter.mp h
        refine ⟨?_, hmf.1⟩
        intro hcon
        injection hcon with hct
        subst hct
        simpa using hmf.2
  · exact fun s ok => rfl
  · intro es
    rcases debRun_inv es with ⟨_, h2⟩ | ⟨tm, _, h2⟩ <;> simp [h2]

/-- Witness for the hypotheses of `debouncerContract`: in the state
where timers 0 and 1 are live and timer 0 is tracked, a `schedule` at
time 7 keeps timer 1 alive, and the contract certifies that timer 1 was
live before and was not the tracked timer. -/
theorem debouncerContract_witness :
    (⟨[⟨0, 50⟩, ⟨1, 60⟩], some 0, 2⟩ : DebState).tracked ≠ some 1 ∧
      Timer.mk 1 60 ∈ (⟨[⟨0, 50⟩, ⟨1, 60⟩], some 0, 2⟩ : DebState).live :=
  debouncerContract.2.1 ⟨[⟨0, 50⟩, ⟨1, 60⟩], some 0, 2⟩ 7 ⟨1, 60⟩ (by decide) (by decide)

/-- Claim C6 counterexample: two scheduled broadcasts can coexist.  The
trace mirrors the JavaScript event loop: `debouncedBroadcast()` at
t=0 sets timer 0 for t=100; timer 0 fires and its callback suspends on
`await broadcastLeaderboard()`; during that await a commit calls
`debouncedBroadcast()` (t=101), whose `clearTimeout` on the
already-fired handle 0 is a no-op and which sets timer 1 for t=201; the
callback then resumes and executes `broadcastTimeout = null`, orphaning
timer 1; a further `debouncedBroadcast()` (t=110) finds
`broadcastTimeout === null` and sets timer 2 — timers 1 and 2 are now
both scheduled, refuting "at most one scheduled broadcast exists
system-wide at any instant". -/
theorem C6_counterexample :
    (debouncedBroadcast
        (fireEnd
          (debouncedBroadcast (fireStart (debouncedBroadcast initDeb 0) 0) 101)
          true)
        110).live.length = 2 := by
  decide

theorem getScore_applyScoreUpdate (t : Team) (f : String) (v d : Int) (g : String) :
    getScore (applyScoreUpdate t f v d) g = getScore (setScore t f v) g := rfl

/-- Claim C10: a successful atomic score update touches only the named
score field, `total` and `version` of the one matched record — its
`_id`, `name`, `createdAt` and the other four score fields are
unchanged, and every record with a different `_id` is unchanged at its
position in the store. -/
theorem atomicUpdateFrame (db : List Team) (teamId : Nat) (f : String)
    (nv : Option Int) (cv : Option Nat) (db2 : List Team) (t2 : Team)
    (h : atomicUpdateScore db teamId f nv cv = .ok (db2, t2)) :
    db2.length = db.length ∧
    (∀ (i : Nat) (u : Team), db[i]? = some u → u.id ≠ teamId → db2[i]? = some u) ∧
    (∃ v t, nv = some v ∧ t ∈ db ∧ t.id = teamId ∧
      t2.id = t.id ∧ t2.name = t.name ∧ t2.createdAt = t.createdAt ∧
      t2.version = t.version + 1 ∧ t2.total = t.total + (v - getScore t f) ∧
      getScore t2 f = v ∧
      (∀ g, g ∈ validFields → g ≠ f → getScore t2 g = getScore t g)) := by
  obtain ⟨v, ct, hnv, hf, hvnn, hct, ht2, hdb2⟩ :=
    atomicUpdateScore_ok db teamId f nv cv db2 t2 h
  have hmem : ct ∈ db := List.mem_of_find?_eq_some hct
  have hcid : ct.id = teamId := by
    have := List.find?_some hct
    simpa using this
  subst hdb2
  refine ⟨replaceFirst_length _ _ _, ?_, v, ct, hnv, hmem, hcid, ?_, ?_, ?_, ?_, ?_, ?_, ?_⟩
  · intro i u hu hne
    refine getElem?_replaceFirst db _ t2 i u hu ?_
    simp [hne]
  · rw [ht2]
    simp [applyScoreUpdate, setScore_id]
  · rw [ht2]
    simp [applyScoreUpdate, setScore_name]
  · rw [ht2]
    simp [applyScoreUpdate, setScore_createdAt]
  · rw [ht2]
    simp [applyScoreUpdate, setScore_version]
  · rw [ht2]
    simp [applyScoreUpdate, setScore_total]
  · rw [ht2, getScore_applyScoreUpdate]
    exact getScore_setScore_same ct f v hf
  · intro g hg hgf
    rw [ht2, getScore_applyScoreUpdate]
    exact getScore_setScore_other ct f g v hf hg hgf

/-- Witness for C10 at a concrete two-team store: team 1's
`spaceRoulette` is set to 3; team 0 is untouched. -/
theorem atomicUpdateFrame_witness :
    ([Team.mk 0 "A" 1 0 0 0 0 1 0 0, Team.mk 1 "B" 2 0 3 0 0 5 1 5].length =
      [Team.mk 0 "A" 1 0 0 0 0 1 0 0, Team.mk 1 "B" 2 0 0 0 0 2 0 5].length) ∧
    (∀ (i : Nat) (u : Team),
      [Team.mk 0 "A" 1 0 0 0 0 1 0 0, Team.mk 1 "B" 2 0 0 0 0 2 0 5][i]? = some u →
      u.id ≠ 1 →
      [Team.mk 0 "A" 1 0 0 0 0 1 0 0, Team.mk 1 "B" 2 0 3 0 0 5 1 5][i]? = some u) ∧
    (∃ v t, (some 3 : Option Int) = some v ∧
      t ∈ [Team.mk 0 "A" 1 0 0 0 0 1 0 0, Team.mk 1 "B" 2 0 0 0 0 2 0 5] ∧ t.id = 1 ∧
      (Team.mk 1 "B" 2 0 3 0 0 5 1 5).id = t.id ∧
      (Team.mk 1 "B" 2 0 3 0 0 5 1 5).name = t.name ∧
      (Team.mk 1 "B" 2 0 3 0 0 5 1 5).createdAt = t.createdAt ∧
      (Team.mk 1 "B" 2 0 3 0 0 5 1 5).version = t.version + 1 ∧
      (Team.mk 1 "B" 2 0 3 0 0 5 1 5).total = t.total + (v - getScore t "spaceRoulette") ∧
      getScore (Team.mk 1 "B" 2 0 3 0 0 5 1 5) "spaceRoulette" = v ∧
      (∀ g, g ∈ validFields → g ≠ "spaceRoulette" →
        getScore (Team.mk 1 "B" 2 0 3 0 0 5 1 5) g = getScore t g)) :=
  atomicUpdateFrame [Team.mk 0 "A" 1 0 0 0 0 1 0 0, Team.mk 1 "B" 2 0 0 0 0 2 0 5]
    1 "spaceRoulette" (some 3) none
    [Team.mk 0 "A" 1 0 0 0 0 1 0 0, Team.mk 1 "B" 2 0 3 0 0 5 1 5]
    (Team.mk 1 "B" 2 0 3 0 0 5 1 5) rfl

theorem jsIncludes_invalidFieldMsg :
    jsIncludes "CONFLICT" (errMessage .invalidField) = false := by decide

theorem jsIncludes_invalidValueMsg :
    jsIncludes "CONFLICT" (errMessage .invalidValue) = false := by decide

theorem jsIncludes_notFoundMsg :
    jsIncludes "CONFLICT" (errMessage .notFound) = false := by decide

/-- A first attempt that fails with a non-CONFLICT message is never
retried: one attempt, no broadcast schedule, one `updateError` with
`retryCount = 0`. -/
theorem attemptUpdate_nonconflict (tryAt : Nat → Except UpdErr (List Team × Team))
    (load : ServerLoad) (e : UpdErr) (h0 : tryAt 0 = .error e)
    (hm : jsIncludes "CONFLICT" (errMessage e) = false) :
    attemptUpdate tryAt load 0 = ⟨1, false, .failure e 0 load⟩ := by
  unfold attemptUpdate attemptUpdateAux
  rw [h0]
  simp [hm]

/-- Claim C5: the store validates the field name against the fixed
five-name set and the value as a non-negative number before any
mutation attempt, and each of InvalidField (e.g. field `"foo"`),
InvalidValue and NotFound makes the `updateScore` handler fail after a
single attempt: the store is unchanged, no broadcast is scheduled, no
retry happens, and one `updateError` with `retryCount = 0` is
emitted. -/
theorem immediateValidationFailures (db : List Team) (teamId : Nat) (load : ServerLoad) :
    (∀ (f : String) (v : Option Int), f ∉ validFields →
        handleUpdateScore db teamId f v load =
          (db, ⟨1, false, .failure .invalidField 0 load⟩)) ∧
    (∀ (f : String) (n : Option Int), f ∈ validFields →
        (n = none ∨ ∃ m, n = some m ∧ m < 0) →
        handleUpdateScore db teamId f n load =
          (db, ⟨1, false, .failure .invalidValue 0 load⟩)) ∧
    (∀ (f : String) (n : Int), f ∈ validFields → 0 ≤ n → findById db teamId = none →
        handleUpdateScore db teamId f (some n) load =
          (db, ⟨1, false, .failure .notFound 0 load⟩)) := by
  refine ⟨?_, ?_, ?_⟩
  · intro f v hf
    have he : atomicUpdateScore db teamId f v none = .error .invalidField := by
      unfold atomicUpdateScore
      rw [if_neg]
      simpa using hf
    have hr := attemptUpdate_nonconflict (fun _ => atomicUpdateScore db teamId f v none)
      load .invalidField he jsIncludes_invalidFieldMsg
    unfold handleUpdateScore
    rw [hr]
  · intro f n hf hn
    have hc : validFields.contains f = true := by simpa using hf
    have he : atomicUpdateScore db teamId f n none = .error .invalidValue := by
      unfold atomicUpdateScore
      rw [if_pos hc]
      rcases hn with rfl | ⟨m, rfl, hm⟩
      · rfl
      · dsimp only
        rw [if_pos hm]
    have hr := attemptUpdate_nonconflict (fun _ => atomicUpdateScore db teamId f n none)
      load .invalidValue he jsIncludes_invalidValueMsg
    unfold handleUpdateScore
    rw [hr]
  · intro f n hf hn hnone
    have hc : validFields.contains f = true := by simpa using hf
    have he : atomicUpdateScore db teamId f (some n) none = .error .notFound := by
      unfold atomicUpdateScore
      rw [if_pos hc]
      dsimp only
      rw [if_neg (by omega), hnone]
    have hr := attemptUpdate_nonconflict (fun _ => atomicUpdateScore db teamId f (some n) none)
      load .notFound he jsIncludes_notFoundMsg
    unfold handleUpdateScore
    rw [hr]

/-- Witness for C5: the unknown field name `"foo"` on a concrete store
fails with InvalidField, version untouched, no broadcast, no retry. -/
theorem immediateValidationFailures_witness :
    handleUpdateScore [Team.mk 0 "A" 0 0 0 0 0 0 0 0] 0 "foo" (some 5) ⟨2, 1⟩ =
      ([Team.mk 0 "A" 0 0 0 0 0 0 0 0], ⟨1, false, .failure .invalidField 0 ⟨2, 1⟩⟩) :=
  (immediateValidationFailures [Team.mk 0 "A" 0 0 0 0 0 0 0 0] 0 ⟨2, 1⟩).1 "foo" (some 5)
    (by decide)

theorem assignRanks_map_team (k : Nat) (l : List Team) :
    (assignRanks k l).map RankedTeam.team = l := by
  induction l generalizing k with
  | nil => rfl
  | cons t ts ih => simp [assignRanks, ih]

theorem assignRanks_map_rank (k : Nat) (l : List Team) :
    (assignRanks k l).map RankedTeam.rank = List.range' (k + 1) l.length := by
  induction l generalizing k with
  | nil => rfl
  | cons t ts ih => simp [assignRanks, ih, List.range'_succ]

/-- Claim C9: every ranked snapshot (`GET /api/teams`, the push on
connect, and each debounced broadcast all call `getLeaderboard`) is
computed from the current store state: its entries are exactly the
store's teams (a permutation) sorted by `total` descending with ties
broken by `createdAt` ascending, ranks are the 1-based positions after
sorting, and on the spec's example — team A total 10 created before
team B with total 20, then A's field updated by +10 to total 20 — the
tie-break places A at rank 1 before B at rank 2. -/
theorem leaderboardRanking :
    (∀ db : List Team, List.Sorted teamOrder ((getLeaderboard db).map RankedTeam.team)) ∧
    (∀ db : List Team, ((getLeaderboard db).map RankedTeam.team).Perm db) ∧
    (∀ db : List Team, (getLeaderboard db).map RankedTeam.rank = List.range' 1 db.length) ∧
    (atomicUpdateScore
        [Team.mk 0 "A" 10 0 0 0 0 10 0 0, Team.mk 1 "B" 20 0 0 0 0 20 0 1]
        0 "madLudo" (some 20) none =
      .ok ([Team.mk 0 "A" 20 0 0 0 0 20 1 0, Team.mk 1 "B" 20 0 0 0 0 20 0 1],
        Team.mk 0 "A" 20 0 0 0 0 20 1 0)) ∧
    (getLeaderboard [Team.mk 0 "A" 20 0 0 0 0 20 1 0, Team.mk 1 "B" 20 0 0 0 0 20 0 1] =
      [⟨Team.mk 0 "A" 20 0 0 0 0 20 1 0, 1⟩, ⟨Team.mk 1 "B" 20 0 0 0 0 20 0 1, 2⟩]) := by
  refine ⟨?_, ?_, ?_, ?_, ?_⟩
  · intro db
    rw [getLeaderboard, assignRanks_map_team]
    exact List.sorted_insertionSort teamOrder db
  · intro db
    rw [getLeaderboard, assignRanks_map_team]
    exact List.perm_insertionSort teamOrder db
  · intro db
    rw [getLeaderboard, assignRanks_map_rank]
    congr 1
    exact (List.perm_insertionSort teamOrder db).length_eq
  · rfl
  · rfl

theorem assignOne_version (acc : Team) (k : String) (v : Val) :
    (assignOne acc k v).version = acc.version := by
  cases v <;> unfold assignOne <;> dsimp only <;> split_ifs <;>
    simp [setScore_version]

theorem assignUpdates_version (t : Team) (updates : List (String × Val)) :
    (assignUpdates t updates).version = t.version := by
  induction updates generalizing t with
  | nil => rfl
  | cons kv kvs ih =>
    show (assignUpdates (assignOne t kv.1 kv.2) kvs).version = t.version
    rw [ih, assignOne_version]

theorem preSave_version (isNew modifiedScores : Bool) (t : Team) :
    (preSave isNew modifiedScores t).version = t.version := by
  unfold preSave
  split_ifs <;> rfl

/-- Claim C4, amended: only the CAS path increments `version`, and it
increments it by exactly 1 per commit; the save-based PATCH branch —
taken whenever the body carries a truthy `name` value (rename) or does
not carry exactly one score key (multi-field update) — commits its
mutation with `version` unchanged, because the `pre('save')` hook
recomputes `total` but never touches `version`.  (A falsy `name` value
such as `""` or `0` together with a single score key is routed to the
atomic branch by the route's truthiness guard and does bump
`version`.) -/
theorem versionIncrementPerPath :
    (∀ (db : List Team) (teamId : Nat) (f : String) (nv : Option Int) (cv : Option Nat)
        (db2 : List Team) (t2 : Team),
      atomicUpdateScore db teamId f nv cv = .ok (db2, t2) →
        ∃ ct, findById db teamId = some ct ∧ t2.version = ct.version + 1) ∧
    (∀ (db : List Team) (id : Nat) (updates : List (String × Val)) (w : Val)
        (db2 : List Team) (t2 : Team),
      updates.lookup "name" = some w →
      nameTruthy (some w) = true →
      patchTeam db id updates = .ok (db2, t2) →
        ∃ ct, findById db id = some ct ∧ t2.version = ct.version) := by
  constructor
  · intro db teamId f nv cv db2 t2 h
    obtain ⟨v, ct, _, _, _, hct, ht2, _⟩ := atomicUpdateScore_ok db teamId f nv cv db2 t2 h
    refine ⟨ct, hct, ?_⟩
    rw [ht2]
    simp [applyScoreUpdate, setScore_version]
  · intro db id updates w db2 t2 hw htr h
    unfold patchTeam at h
    rw [hw] at h
    simp only [htr, Bool.not_true, Bool.and_false, Bool.false_eq_true, if_false] at h
    split at h
    · exact Except.noConfusion h
    · rename_i team hteam
      cases h
      exact ⟨team, hteam, by rw [preSave_version, assignUpdates_version]⟩

/-- Claim C4 counterexample: a PATCH that renames team 0 commits a
mutation (the name changes) through the save path, yet `version` stays
at 3 instead of moving to 4. -/
theorem C4_counterexample :
    patchTeam [Team.mk 0 "A" 1 2 3 4 5 15 3 0] 0 [("name", Val.str "B")] =
      .ok ([Team.mk 0 "B" 1 2 3 4 5 15 3 0], Team.mk 0 "B" 1 2 3 4 5 15 3 0) ∧
    (Team.mk 0 "B" 1 2 3 4 5 15 3 0).version = (Team.mk 0 "A" 1 2 3 4 5 15 3 0).version ∧
    (Team.mk 0 "B" 1 2 3 4 5 15 3 0).name ≠ (Team.mk 0 "A" 1 2 3 4 5 15 3 0).name :=
  ⟨rfl, rfl, by decide⟩

/-- Witness for C4 (amended): a concrete CAS commit moves version 7 to
8, and a concrete save-path commit (rename plus two score fields)
leaves version at 7. -/
theorem versionIncrementPerPath_witness :
    (∃ ct, findById [Team.mk 3 "C" 0 0 0 0 0 0 7 2] 3 = some ct ∧
      (Team.mk 3 "C" 4 0 0 0 0 4 8 2).version = ct.version + 1) ∧
    (∃ ct, findById [Team.mk 3 "C" 0 0 0 0 0 0 7 2] 3 = some ct ∧
      (Team.mk 3 "D" 5 6 0 0 0 11 7 2).version = ct.version) :=
  ⟨versionIncrementPerPath.1 [Team.mk 3 "C" 0 0 0 0 0 0 7 2] 3 "madLudo" (some 4) none
      [Team.mk 3 "C" 4 0 0 0 0 4 8 2] (Team.mk 3 "C" 4 0 0 0 0 4 8 2) rfl,
    versionIncrementPerPath.2 [Team.mk 3 "C" 0 0 0 0 0 0 7 2] 3
      [("name", Val.str "D"), ("madLudo", Val.num 5), ("treasureHunt", Val.num 6)]
      (Val.str "D") [Team.mk 3 "D" 5 6 0 0 0 11 7 2] (Team.mk 3 "D" 5 6 0 0 0 11 7 2)
      rfl rfl rfl⟩

/-- Claim C2, amended: the store's update is two database steps, not
one indivisible step: a snapshot read (`findById`) and then the single
atomic CAS write (`findOneAndUpdate`).  The CAS write commits iff some
document still carries the snapshot's `_id` and `version`; on commit it
sets the field, adds the delta to `total`, increments `version` by 1
and returns the new record, and on mismatch it changes nothing and the
operation throws CONFLICT.  Both the guard version and the delta are
taken from the same snapshot read — which is why a write that does not
move `version` inside the read-write window makes the composite differ
from the claimed indivisible step (see the counterexample). -/
theorem casCharacterisation (db : List Team) (teamId sv : Nat) (f : String)
    (v d : Int) (cv : Option Nat) :
    (∀ (db2 : List Team) (t2 : Team),
      findOneAndUpdateScore db teamId sv f v d = some (db2, t2) →
      ∃ t, db.find? (fun u => u.id == teamId && u.version == sv) = some t ∧
        t2 = applyScoreUpdate t f v d ∧
        t2.version = t.version + 1 ∧ t2.total = t.total + d ∧
        db2 = replaceFirst db (fun u => u.id == teamId && u.version == sv) t2) ∧
    (findOneAndUpdateScore db teamId sv f v d = none ↔
      db.find? (fun u => u.id == teamId && u.version == sv) = none) ∧
    (∀ ct, findById db teamId = some ct → validFields.contains f = true → 0 ≤ v →
      atomicUpdateScore db teamId f (some v) cv =
        match findOneAndUpdateScore db teamId ct.version f v (v - getScore ct f) with
        | none => .error .conflict
        | some r => .ok r) := by
  refine ⟨?_, ?_, ?_⟩
  · intro db2 t2 h
    unfold findOneAndUpdateScore at h
    split at h
    · exact Option.noConfusion h
    · rename_i t hfind
      cases h
      exact ⟨t, hfind, rfl, by simp [applyScoreUpdate, setScore_version],
        by simp [applyScoreUpdate, setScore_total], rfl⟩
  · unfold findOneAndUpdateScore
    cases db.find? (fun u => u.id == teamId && u.version == sv) <;> simp
  · intro ct hct hf hv
    unfold atomicUpdateScore
    rw [if_pos hf]
    dsimp only
    rw [if_neg (by omega), hct]

/-- Witness for C2 (amended): a concrete CAS write on a record at the
snapshot version commits and returns the updated record. -/
theorem casCharacterisation_witness :
    ∃ t, [Team.mk 0 "A" 0 0 0 0 0 0 2 0].find?
        (fun u => u.id == 0 && u.version == 2) = some t ∧
      Team.mk 0 "A" 0 0 0 6 0 6 3 0 = applyScoreUpdate t "cosmicJump" 6 6 ∧
      (Team.mk 0 "A" 0 0 0 6 0 6 3 0).version = t.version + 1 ∧
      (Team.mk 0 "A" 0 0 0 6 0 6 3 0).total = t.total + 6 ∧
      [Team.mk 0 "A" 0 0 0 6 0 6 3 0] =
        replaceFirst [Team.mk 0 "A" 0 0 0 0 0 0 2 0]
          (fun u => u.id == 0 && u.version == 2) (Team.mk 0 "A" 0 0 0 6 0 6 3 0) :=
  (casCharacterisation [Team.mk 0 "A" 0 0 0 0 0 0 2 0] 0 2 "cosmicJump" 6 6 none).1
    [Team.mk 0 "A" 0 0 0 6 0 6 3 0] (Team.mk 0 "A" 0 0 0 6 0 6 3 0) rfl

/-- Claim C2 counterexample: the operation is not one indivisible step.
Team A starts at all-zero scores, version 0.  The socket update (set
`madLudo := 5`) performs its snapshot read on that state; during the
`await` before its CAS write, a PATCH save-path write commits
`madLudo := 10`, `total := 10` WITHOUT moving `version`; the CAS then
still matches version 0 and commits with the stale delta `5 - 0`,
returning a record with `total = 15`.  The claimed indivisible
read-compare-write step yields `total = 5` whether it runs on the
pre-interleave state or on the post-interleave state, so no indivisible
execution produces the observed outcome. -/
theorem C2_counterexample :
    findById [Team.mk 0 "A" 0 0 0 0 0 0 0 0] 0 = some (Team.mk 0 "A" 0 0 0 0 0 0 0 0) ∧
    patchTeam [Team.mk 0 "A" 0 0 0 0 0 0 0 0] 0
        [("madLudo", Val.num 10), ("treasureHunt", Val.num 0)] =
      .ok ([Team.mk 0 "A" 10 0 0 0 0 10 0 0], Team.mk 0 "A" 10 0 0 0 0 10 0 0) ∧
    findOneAndUpdateScore [Team.mk 0 "A" 10 0 0 0 0 10 0 0] 0 0 "madLudo" 5 (5 - 0) =
      some ([Team.mk 0 "A" 5 0 0 0 0 15 1 0], Team.mk 0 "A" 5 0 0 0 0 15 1 0) ∧
    specIndivisibleUpdate [Team.mk 0 "A" 0 0 0 0 0 0 0 0] 0 "madLudo" 5 0 =
      .ok ([Team.mk 0 "A" 5 0 0 0 0 5 1 0], Team.mk 0 "A" 5 0 0 0 0 5 1 0) ∧
    specIndivisibleUpdate [Team.mk 0 "A" 10 0 0 0 0 10 0 0] 0 "madLudo" 5 0 =
      .ok ([Team.mk 0 "A" 5 0 0 0 0 5 1 0], Team.mk 0 "A" 5 0 0 0 0 5 1 0) ∧
    (Team.mk 0 "A" 5 0 0 0 0 15 1 0).total ≠ (Team.mk 0 "A" 5 0 0 0 0 5 1 0).total :=
  ⟨rfl, rfl, rfl, rfl, rfl, by decide⟩

theorem assignOne_total (acc : Team) (k : String) (v : Val) :
    (assignOne acc k v).total = acc.total := by
  cases v <;> unfold assignOne <;> dsimp only <;> split_ifs <;>
    simp [setScore_total]

theorem assignUpdates_total (t : Team) (updates : List (String × Val)) :
    (assignUpdates t updates).total = t.total := by
  induction updates generalizing t with
  | nil => rfl
  | cons kv kvs ih =>
    show (assignUpdates (assignOne t kv.1 kv.2) kvs).total = t.total
    rw [ih, assignOne_total]

theorem scoresModified_false_sum (t t2 : Team) (h : scoresModified t t2 = false) :
    sumScores t2 = sumScores t := by
  simp [scoresModified, scoreFields, getScore] at h
  obtain ⟨h1, h2, h3, h4, h5⟩ := h
  unfold sumScores
  rw [h1, h2, h3, h4, h5]

theorem atomic_total_inv (db : List Team) (hInv : ∀ t ∈ db, t.total = sumScores t)
    (teamId : Nat) (f : String) (nv : Option Int) (cv : Option Nat)
    (db2 : List Team) (t2 : Team)
    (h : atomicUpdateScore db teamId f nv cv = .ok (db2, t2)) :
    (∀ u ∈ db2, u.total = sumScores u) ∧ t2.total = sumScores t2 := by
  obtain ⟨v, ct, hnv, hf, hvn, hct, ht2, hdb2⟩ :=
    atomicUpdateScore_ok db teamId f nv cv db2 t2 h
  have hctmem : ct ∈ db := List.mem_of_find?_eq_some hct
  have hctInv : ct.total = sumScores ct := hInv ct hctmem
  have ht2inv : t2.total = sumScores t2 := by
    rw [ht2]
    have h1 : (applyScoreUpdate ct f v (v - getScore ct f)).total
        = ct.total + (v - getScore ct f) := by
      simp [applyScoreUpdate, setScore_total]
    have h2 : sumScores (applyScoreUpdate ct f v (v - getScore ct f))
        = sumScores (setScore ct f v) := rfl
    rw [h1, h2, sumScores_setScore ct f v hf, hctInv]
  refine ⟨?_, ht2inv⟩
  intro u hu
  rcases mem_replaceFirst db _ t2 u (hdb2 ▸ hu) with rfl | hmem
  · exact ht2inv
  · exact hInv u hmem

/-- Claim C1, amended: `total` equals the sum of the five score fields
in every state produced by a write path run without interleaving — the
atomic score update (whose CAS write applies field, `total` and
`version` in one atomic step, so no reader sees a half-applied commit)
and both branches of the PATCH route (the `pre('save')` hook recomputes
`total` whenever a score field was modified) — and every record a
reader observes from such a store, whether a returned record or an
entry of the ranked snapshot, satisfies it.  The invariant is NOT
maintained under interleaving: a save-path write landing inside an
atomic update's read-write window breaks it (see the
counterexample). -/
theorem totalInvariantSequential (db : List Team)
    (hInv : ∀ t ∈ db, t.total = sumScores t) :
    (∀ (teamId : Nat) (f : String) (nv : Option Int) (cv : Option Nat)
        (db2 : List Team) (t2 : Team),
      atomicUpdateScore db teamId f nv cv = .ok (db2, t2) →
        (∀ u ∈ db2, u.total = sumScores u) ∧ t2.total = sumScores t2) ∧
    (∀ (id : Nat) (updates : List (String × Val)) (db2 : List Team) (t2 : Team),
      patchTeam db id updates = .ok (db2, t2) →
        (∀ u ∈ db2, u.total = sumScores u) ∧ t2.total = sumScores t2) ∧
    (∀ r ∈ getLeaderboard db, r.team.total = sumScores r.team) := by
  refine ⟨?_, ?_, ?_⟩
  · exact fun teamId f nv cv db2 t2 h => atomic_total_inv db hInv teamId f nv cv db2 t2 h
  · intro id updates db2 t2 h
    unfold patchTeam at h
    dsimp only at h
    split_ifs at h with hcond
    · split at h
      · rename_i field hfield
        exact atomic_total_inv db hInv id field _ none db2 t2 h
      · exact Except.noConfusion h
    · split at h
      · exact Except.noConfusion h
      · rename_i team hteam
        cases h
        have hmem : team ∈ db := List.mem_of_find?_eq_some hteam
        have hteamInv : team.total = sumScores team := hInv team hmem
        have ht3 : (preSave false (scoresModified team (assignUpdates team updates))
              (assignUpdates team updates)).total
            = sumScores (preSave false (scoresModified team (assignUpdates team updates))
              (assignUpdates team updates)) := by
          unfold preSave
          split_ifs with hmod
          · rfl
          · have hmf : scoresModified team (assignUpdates team updates) = false := by
              simpa using hmod
            calc (assignUpdates team updates).total
                = team.total := assignUpdates_total team updates
              _ = sumScores team := hteamInv
              _ = sumScores (assignUpdates team updates) :=
                  (scoresModified_false_sum team (assignUpdates team updates) hmf).symm
        refine ⟨?_, ht3⟩
        intro u hu
        rcases mem_replaceFirst db _ _ u hu with rfl | hmem2
        · exact ht3
        · exact hInv u hmem2
  · intro r hr
    have hmap : r.team ∈ (getLeaderboard db).map RankedTeam.team :=
      List.mem_map_of_mem RankedTeam.team hr
    rw [getLeaderboard, assignRanks_map_team] at hmap
    have hmem : r.team ∈ db := (List.perm_insertionSort teamOrder db).mem_iff.mp hmap
    exact hInv r.team hmem

/-- Witness for C1 (amended): on a concrete consistent store, a
successful atomic update of `spaceColosseum` keeps every record, and
the returned record, consistent. -/
theorem totalInvariantSequential_witness :
    (∀ u ∈ [Team.mk 0 "W" 1 1 1 1 2 6 1 0], u.total = sumScores u) ∧
    (Team.mk 0 "W" 1 1 1 1 2 6 1 0).total = sumScores (Team.mk 0 "W" 1 1 1 1 2 6 1 0) :=
  (totalInvariantSequential [Team.mk 0 "W" 1 1 1 1 1 5 0 0] (by decide)).1
    0 "spaceColosseum" (some 2) none
    [Team.mk 0 "W" 1 1 1 1 2 6 1 0] (Team.mk 0 "W" 1 1 1 1 2 6 1 0) rfl

/-- Claim C1 counterexample: a reader-observable record with
`total ≠` sum of the five fields.  Team A starts all-zero at version 0.
The socket update (set `madLudo := 7`) takes its snapshot read; inside
its `await` window a PATCH save-path write commits `madLudo := 10`,
`total := 10` without moving `version`; the atomic path's CAS still
matches version 0 and commits the stale delta `7 - 0`, leaving the
store's only record — returned to the caller and served in every
leaderboard snapshot — with `total = 17` while its fields sum to 7. -/
theorem C1_counterexample :
    findById [Team.mk 0 "A" 0 0 0 0 0 0 0 0] 0 = some (Team.mk 0 "A" 0 0 0 0 0 0 0 0) ∧
    patchTeam [Team.mk 0 "A" 0 0 0 0 0 0 0 0] 0
        [("madLudo", Val.num 10), ("treasureHunt", Val.num 0)] =
      .ok ([Team.mk 0 "A" 10 0 0 0 0 10 0 0], Team.mk 0 "A" 10 0 0 0 0 10 0 0) ∧
    findOneAndUpdateScore [Team.mk 0 "A" 10 0 0 0 0 10 0 0] 0
        (Team.mk 0 "A" 0 0 0 0 0 0 0 0).version "madLudo" 7
        (7 - getScore (Team.mk 0 "A" 0 0 0 0 0 0 0 0) "madLudo") =
      some ([Team.mk 0 "A" 7 0 0 0 0 17 1 0], Team.mk 0 "A" 7 0 0 0 0 17 1 0) ∧
    getLeaderboard [Team.mk 0 "A" 7 0 0 0 0 17 1 0] =
      [⟨Team.mk 0 "A" 7 0 0 0 0 17 1 0, 1⟩] ∧
    (Team.mk 0 "A" 7 0 0 0 0 17 1 0).total ≠ sumScores (Team.mk 0 "A" 7 0 0 0 0 17 1 0) :=
  ⟨rfl, rfl, rfl, rfl, by decide⟩

end Leaderboard
